import Mathlib

/-!
Verification of the beer-consumption dashboard aggregation pipeline
(`src/app.py`) against its specification.

The dashboard loads a transaction table, filters it by two multiselect
widgets (business unit = POSDescription, reporting period = Bill Month), and
recomputes a fixed sequence of aggregate views from the filtered subset.

Shallow embedding conventions:
* a table is a `List Row`, one row per transaction line item;
* monetary amounts (`Gross Amount`, `NetAmount`) are exact rationals;
* dates are integers counting days (a `pd.Timedelta(days = n)` is the
  integer `n`);
* pandas `Series.max()` on an empty series yields `NaT`/`NaN`; we embed such
  maxima as `Option Int`, with `none` for the empty case, and comparisons
  against `none` are false exactly as comparisons against `NaT` are;
* the repeat-guest percentage divides by the distinct-customer count with no
  guard in the source; numpy evaluates `0 / 0` to `NaN` (with a runtime
  warning, not an exception), which we embed as `none : Option ℚ`;
* `DataFrame.iloc` on an out-of-range position raises `IndexError`, which
  aborts the rest of the script run; the script tail is embedded in
  `Except String` to capture this.
-/

namespace App

/-- One row of the transaction table (one line item), with the columns the
aggregation pipeline reads.  `customer` is the `Customer Mobile No` column
cast to `str`; `centre` is `POSDescription`; `brand` is
`MenuGroupDescription`; `billMonth` is `Bill Month`; `date` is the parsed
`Date` column measured in days. -/
structure Row where
  billNo : Nat
  customer : String
  centre : String
  billMonth : String
  brand : String
  gross : ℚ
  net : ℚ
  qty : ℚ
  date : Int
deriving DecidableEq, Repr

/-- Embeds `df[(df['POSDescription'].isin(centre)) & (df['Bill Month'].isin(month))]`:
keep the rows whose centre is among the selected business units and whose
bill month is among the selected reporting periods. -/
def filteredDf (t : List Row) (centreSel monthSel : List String) : List Row :=
  t.filter (fun r => r.centre ∈ centreSel ∧ r.billMonth ∈ monthSel)

/-- Order-of-appearance distinct customers of a table
(`Series.unique` / the group keys of `groupby('Customer Mobile No')`). -/
def customers (t : List Row) : List String :=
  (t.map (fun r => r.customer)).dedup

/-- The rows of customer `c` in table `t`. -/
def rowsOf (c : String) (t : List Row) : List Row :=
  t.filter (fun r => r.customer = c)

/-- Embeds `filtered_df['Gross Amount'].sum()` — the total-revenue KPI. -/
def total_revenue (t : List Row) : ℚ :=
  (t.map (fun r => r.gross)).sum

/-- Embeds `filtered_df['Customer Mobile No'].nunique()` — the unique-guests KPI. -/
def unique_guests (t : List Row) : Nat :=
  (customers t).length

/-- Embeds `filtered_df['Customer Mobile No'].value_counts()`: for each distinct
customer, the number of ROWS (line items) carrying that customer — not the
number of distinct bills. -/
def value_counts (t : List Row) : List (String × Nat) :=
  (customers t).map (fun c => (c, (rowsOf c t).length))

/-- Embeds `repeat_counts[repeat_counts > 1].count()` — how many distinct customers
have more than one row in the filtered table. -/
def repeatGuestCount (t : List Row) : Nat :=
  ((value_counts t).filter (fun p => 1 < p.2)).length

/-- Embeds `(repeat_counts[repeat_counts > 1].count() / unique_guests) * 100`.
The source divides with no zero-denominator guard; when `unique_guests`
is `0` numpy produces `NaN` (rendered as `nan%`), embedded here as `none`. -/
def repeat_pct (t : List Row) : Option ℚ :=
  if unique_guests t = 0 then none
  else some (((repeatGuestCount t : ℚ) / (unique_guests t : ℚ)) * 100)

/-- Embeds `nunique` of `Bill No` within one customer's rows — the "visits" measure
of the Guest Summary. -/
def distinctBills (c : String) (t : List Row) : Nat :=
  ((rowsOf c t).map (fun r => r.billNo)).dedup.length

/-- Embeds `sum` of `Gross Amount` within one customer's rows — the "spend" measure
of the Guest Summary. -/
def spendOf (c : String) (t : List Row) : ℚ :=
  ((rowsOf c t).map (fun r => r.gross)).sum

/-- The customer segments. -/
inductive Segment where
  | VIP
  | Regular
  | Occasional
deriving DecidableEq, Repr

/-- The `segment` function of the source, applied to one Guest Summary row:
`if spend > 10000 or visits >= 6: VIP elif visits >= 3: Regular else:
Occasional`. -/
def segment (visits : Nat) (spend : ℚ) : Segment :=
  if 10000 < spend ∨ 6 ≤ visits then Segment.VIP
  else if 3 ≤ visits then Segment.Regular
  else Segment.Occasional

/-- One row of `guest_metrics` after the `Segment` column is added:
customer key, distinct-bill count, gross-amount sum, assigned segment. -/
structure GuestRow where
  customer : String
  visits : Nat
  spend : ℚ
  seg : Segment
deriving DecidableEq, Repr

/-- Embeds `filtered_df.groupby('Customer Mobile No').agg(visits = nunique of bill,
spend = sum of gross)` with the `Segment` column applied rowwise. -/
def guest_metrics (t : List Row) : List GuestRow :=
  (customers t).map (fun c =>
    { customer := c
      visits := distinctBills c t
      spend := spendOf c t
      seg := segment (distinctBills c t) (spendOf c t) })

/-- Embeds `guest_metrics.merge(filtered_df[['Customer Mobile No','Gross Amount']],
on = 'Customer Mobile No')`: the inner join pairs each guest row with every
filtered row of the same customer, keeping that row's segment and gross
amount. -/
def segJoin (t : List Row) : List (Segment × ℚ) :=
  (guest_metrics t).flatMap (fun g =>
    (t.filter (fun r => r.customer = g.customer)).map (fun r => (g.seg, r.gross)))

/-- Embeds `.groupby('Segment')['Gross Amount'].sum()` read at one segment label
(absent labels read as `0`). -/
def seg_rev (t : List Row) (s : Segment) : ℚ :=
  (((segJoin t).filter (fun p => p.1 = s)).map (fun p => p.2)).sum

/-- Embeds pandas `Series.max()` over a list of integer dates: `none` on the empty list
(pandas `NaT`), otherwise the greatest element. -/
def listMax : List Int → Option Int
  | [] => none
  | d :: ds =>
    match listMax ds with
    | none => some d
    | some m => some (max d m)

/-- Embeds `filtered_df.groupby('Customer Mobile No')['Date'].max()` read at one
customer: the latest visit date of that customer's rows. -/
def lastVisit (t : List Row) (c : String) : Option Int :=
  listMax ((rowsOf c t).map (fun r => r.date))

/-- Embeds `filtered_df['Date'].max()` — the global maximum date of the filtered
table. -/
def globalMax (t : List Row) : Option Int :=
  listMax (t.map (fun r => r.date))

/-- The boolean mask `last_visit['Date'] < filtered_df['Date'].max() -
pd.Timedelta(days=30)` at one customer; comparisons against `NaT` are
false. -/
def isInactive (t : List Row) (c : String) : Bool :=
  match lastVisit t c, globalMax t with
  | some d, some m => decide (d < m - 30)
  | _, _ => false

/-- The boolean mask `last_visit['Date'] >= filtered_df['Date'].max() -
pd.Timedelta(days=7)` at one customer; comparisons against `NaT` are
false. -/
def isRecent (t : List Row) (c : String) : Bool :=
  match lastVisit t c, globalMax t with
  | some d, some m => decide (m - 7 ≤ d)
  | _, _ => false

/-- The customers of the `inactive` retention table. -/
def inactive (t : List Row) : List String :=
  (customers t).filter (isInactive t)

/-- The customers of the `recent` retention table. -/
def recent (t : List Row) : List String :=
  (customers t).filter (isRecent t)

/-- Order-of-appearance distinct brands (`MenuGroupDescription` group
keys). -/
def brands (t : List Row) : List String :=
  (t.map (fun r => r.brand)).dedup

/-- One row of `brand_summary`: brand key, distinct-guest count, quantity
sum, gross-revenue sum. -/
structure BrandRow where
  brand : String
  guests : Nat
  quantity : ℚ
  revenue : ℚ
deriving DecidableEq, Repr

/-- The aggregate measures of one brand in `brand_summary`. -/
def brandRow (t : List Row) (b : String) : BrandRow :=
  { brand := b
    guests := ((t.filter (fun r => r.brand = b)).map (fun r => r.customer)).dedup.length
    quantity := ((t.filter (fun r => r.brand = b)).map (fun r => r.qty)).sum
    revenue := ((t.filter (fun r => r.brand = b)).map (fun r => r.gross)).sum }

/-- Embeds `sort_values(by='Revenue', ascending=False)` orders rows so that each
row's revenue is at least the next row's. -/
def revDesc (a b : BrandRow) : Prop := b.revenue ≤ a.revenue

instance : DecidableRel revDesc :=
  fun a b => inferInstanceAs (Decidable (b.revenue ≤ a.revenue))

instance : IsTotal BrandRow revDesc :=
  ⟨fun a b => le_total b.revenue a.revenue⟩

instance : IsTrans BrandRow revDesc :=
  ⟨fun _ _ _ hab hbc => le_trans hbc hab⟩

/-- Embeds `filtered_df.groupby('MenuGroupDescription').agg(...)` followed by
`sort_values(by='Revenue', ascending=False)`. -/
def brand_summary (t : List Row) : List BrandRow :=
  List.insertionSort revDesc ((brands t).map (brandRow t))

/-- Embeds `brand_summary.iloc[0]['MenuGroupDescription']` if it exists. -/
def top_brand (t : List Row) : Option String :=
  (brand_summary t).head?.map (fun r => r.brand)

/-- Embeds `brand_summary.iloc[-1]['MenuGroupDescription']` if it exists. -/
def low_brand (t : List Row) : Option String :=
  (brand_summary t).getLast?.map (fun r => r.brand)

/-- Embeds `DataFrame.iloc[0]`: raises `IndexError` on an empty frame, which aborts
the script run. -/
def iloc0 {α : Type} (l : List α) : Except String α :=
  match l with
  | [] => Except.error "IndexError"
  | a :: _ => Except.ok a

/-- Embeds `DataFrame.iloc[-1]`: raises `IndexError` on an empty frame. -/
def ilocLast {α : Type} (l : List α) : Except String α :=
  match l.getLast? with
  | none => Except.error "IndexError"
  | some a => Except.ok a

/-- Embeds `filtered_df.groupby(['Customer Mobile No','MenuGroupDescription'])
.size()`: the order count per (customer, brand) pair. -/
def guest_pref (t : List Row) : List ((String × String) × Nat) :=
  ((t.map (fun r => (r.customer, r.brand))).dedup).map (fun p =>
    (p, (t.filter (fun r => r.customer = p.1 ∧ r.brand = p.2)).length))

/-- The tail of the script after `brand_summary` is built: the banner
statements read `iloc[0]` and `iloc[-1]` of the brand table, and only if
neither raises does the script go on to build the guest-brand-preference
view.  An `IndexError` aborts the run, so the later view is produced only on
the `ok` path. -/
def scriptTail (t : List Row) :
    Except String ((String × String) × List ((String × String) × Nat)) := do
  let tb ← iloc0 (brand_summary t)
  let lb ← ilocLast (brand_summary t)
  pure ((tb.brand, lb.brand), guest_pref t)

/-- Concrete line item: customer 9998887776, bill 1, first item. -/
def wA : Row :=
  { billNo := 1, customer := "9998887776", centre := "C1", billMonth := "Jan",
    brand := "B1", gross := 100, net := 90, qty := 1, date := 10 }

/-- Concrete line item: same customer and same bill as `wA`, second item on
the bill. -/
def wA2 : Row :=
  { billNo := 1, customer := "9998887776", centre := "C1", billMonth := "Jan",
    brand := "B2", gross := 50, net := 45, qty := 2, date := 10 }

/-- Concrete line item: customer 9990011122, bill 2, last visit day 2. -/
def wB : Row :=
  { billNo := 2, customer := "9990011122", centre := "C2", billMonth := "Feb",
    brand := "B1", gross := 12000, net := 11000, qty := 3, date := 2 }

/-- Concrete line item: customer 9998887776, bill 3, visit day 40. -/
def wC : Row :=
  { billNo := 3, customer := "9998887776", centre := "C1", billMonth := "Feb",
    brand := "B1", gross := 70, net := 60, qty := 1, date := 40 }

/-- A table whose only customer has one distinct bill spread over two line
items: the value-counts mask and the distinct-bill mask disagree here. -/
def exRepeat : List Row := [wA, wA2]

/-- A three-row table with two customers; maximum date 40, customer
9990011122 last seen on day 2 (inactive), customer 9998887776 last seen on
day 40 (recent). -/
def exRet : List Row := [wA, wB, wC]

/-- Summation distributes over a pointwise sum of two row measures. -/
theorem sum_map_add_distrib {α : Type} (l : List α) (f g : α → ℚ) :
    (l.map (fun x => f x + g x)).sum = (l.map f).sum + (l.map g).sum := by
  induction l with
  | nil => simp
  | cons a l ih => simp [ih]; ring

/-- A one-point indicator sums to zero over a list avoiding the point. -/
theorem sum_ite_of_not_mem (cs : List String) (a : String) (v : ℚ)
    (h : a ∉ cs) : (cs.map (fun c => if a = c then v else 0)).sum = 0 := by
  induction cs with
  | nil => simp
  | cons c cs ih =>
    have hne : a ≠ c := fun hac => h (hac ▸ List.mem_cons_self c cs)
    have hnotin : a ∉ cs := fun hac => h (List.mem_cons_of_mem c hac)
    simp [hne, ih hnotin]

/-- A one-point indicator sums to its value over a duplicate-free list
containing the point. -/
theorem sum_ite_of_nodup (cs : List String) (a : String) (v : ℚ)
    (hnd : cs.Nodup) (hmem : a ∈ cs) :
    (cs.map (fun c => if a = c then v else 0)).sum = v := by
  induction cs with
  | nil => cases hmem
  | cons c cs ih =>
    rcases List.nodup_cons.mp hnd with ⟨hc, hnd⟩
    rcases List.mem_cons.mp hmem with h | h
    · subst h
      simp [sum_ite_of_not_mem cs a v hc]
    · have hne : a ≠ c := fun hac => hc (hac ▸ h)
      simp [hne, ih hnd h]

/-- Grouping a table by customer over a duplicate-free, covering key list
and summing the per-group gross totals recovers the table's gross total. -/
theorem sum_gross_partition (t : List Row) :
    ∀ cs : List String, cs.Nodup → (∀ r ∈ t, r.customer ∈ cs) →
    (cs.map (fun c => ((t.filter (fun r => r.customer = c)).map
      (fun r => r.gross)).sum)).sum = (t.map (fun r => r.gross)).sum := by
  induction t with
  | nil => intro cs _ _; simp
  | cons r t ih =>
    intro cs hnd hmem
    have hr : r.customer ∈ cs := hmem r (List.mem_cons_self r t)
    have hstep : ∀ c : String,
        (((r :: t).filter (fun x => x.customer = c)).map (fun x => x.gross)).sum
        = (if r.customer = c then r.gross else 0)
          + ((t.filter (fun x => x.customer = c)).map (fun x => x.gross)).sum := by
      intro c
      by_cases h : r.customer = c <;> simp [List.filter_cons, h]
    calc (cs.map (fun c => (((r :: t).filter (fun x => x.customer = c)).map
            (fun x => x.gross)).sum)).sum
        = (cs.map (fun c => (if r.customer = c then r.gross else 0)
            + ((t.filter (fun x => x.customer = c)).map (fun x => x.gross)).sum)).sum := by
          exact congrArg List.sum (List.map_congr_left (fun c _ => hstep c))
      _ = (cs.map (fun c => if r.customer = c then r.gross else 0)).sum
            + (cs.map (fun c => ((t.filter (fun x => x.customer = c)).map
              (fun x => x.gross)).sum)).sum :=
          sum_map_add_distrib cs _ _
      _ = r.gross + (t.map (fun x => x.gross)).sum := by
          rw [sum_ite_of_nodup cs r.customer r.gross hnd hr,
            ih cs hnd (fun x hx => hmem x (List.mem_cons_of_mem r hx))]
      _ = ((r :: t).map (fun x => x.gross)).sum := by simp

/-- Splitting a list of (segment, amount) pairs by the three segment labels
and summing each part recovers the total amount. -/
theorem sum_seg_filter (j : List (Segment × ℚ)) :
    ((j.filter (fun p => p.1 = Segment.VIP)).map (fun p => p.2)).sum
    + ((j.filter (fun p => p.1 = Segment.Regular)).map (fun p => p.2)).sum
    + ((j.filter (fun p => p.1 = Segment.Occasional)).map (fun p => p.2)).sum
    = (j.map (fun p => p.2)).sum := by
  induction j with
  | nil => simp
  | cons p j ih =>
    rcases hp : p.1 with _ | _ | _ <;>
      simp only [List.filter_cons, hp, List.map_cons, List.sum_cons] <;>
      simp <;> linarith [ih]

/-- Summing rationals over a flatMap equals summing the per-group sums. -/
theorem sum_flatMap_rat {α : Type} (l : List α) (f : α → List ℚ) :
    (l.flatMap f).sum = (l.map (fun x => (f x).sum)).sum := by
  induction l with
  | nil => simp
  | cons a l ih => simp [List.flatMap_cons, ih]

/-- The embedded maximum is `none` exactly on the empty list. -/
theorem listMax_eq_none_iff (l : List Int) : listMax l = none ↔ l = [] := by
  cases l with
  | nil => simp [listMax]
  | cons d ds =>
    constructor
    · intro h
      rw [listMax] at h
      cases hds : listMax ds <;> simp [hds] at h
    · intro h; cases h

/-- The embedded maximum of a list is one of its elements. -/
theorem listMax_mem : ∀ {l : List Int} {m : Int}, listMax l = some m → m ∈ l := by
  intro l
  induction l with
  | nil => intro m h; cases h
  | cons d ds ih =>
    intro m h
    rw [listMax] at h
    cases hds : listMax ds with
    | none =>
      rw [hds] at h
      cases h
      exact List.mem_cons_self d ds
    | some m2 =>
      rw [hds] at h
      cases h
      rcases max_choice d m2 with hmax | hmax
      · rw [hmax]; exact List.mem_cons_self d ds
      · rw [hmax]; exact List.mem_cons_of_mem d (ih hds)

/-- Every element of a list is at most its embedded maximum. -/
theorem le_listMax : ∀ {l : List Int} {x m : Int}, x ∈ l → listMax l = some m → x ≤ m := by
  intro l
  induction l with
  | nil => intro x m hx _; cases hx
  | cons d ds ih =>
    intro x m hx h
    rw [listMax] at h
    rcases List.mem_cons.mp hx with hxd | hxds
    · cases hds : listMax ds with
      | none => rw [hds] at h; cases h; exact le_of_eq hxd
      | some m2 => rw [hds] at h; cases h; exact hxd ▸ le_max_left d m2
    · cases hds : listMax ds with
      | none =>
        have : ds = [] := (listMax_eq_none_iff ds).mp hds
        rw [this] at hxds; cases hxds
      | some m2 =>
        rw [hds] at h; cases h
        exact le_trans (ih hxds hds) (le_max_right d m2)

/-- A member that bounds every element is the embedded maximum. -/
theorem listMax_eq_of_mem_of_le :
    ∀ {l : List Int} {b : Int}, b ∈ l → (∀ x ∈ l, x ≤ b) → listMax l = some b := by
  intro l
  induction l with
  | nil => intro b hb _; cases hb
  | cons d ds ih =>
    intro b hb hbnd
    rw [listMax]
    rcases List.mem_cons.mp hb with hbd | hbds
    · subst hbd
      cases hds : listMax ds with
      | none => rfl
      | some m2 =>
        have hm2 : m2 ≤ b := hbnd m2 (List.mem_cons_of_mem b (listMax_mem hds))
        show some (max b m2) = some b
        rw [max_eq_left hm2]
    · have hds : listMax ds = some b :=
        ih hbds (fun x hx => hbnd x (List.mem_cons_of_mem d hx))
      rw [hds]
      show some (max d b) = some b
      rw [max_eq_right (hbnd d (List.mem_cons_self d ds))]

/-- Claim C2: when the filtered table has zero distinct customers the
repeat-guest computation does NOT yield a guarded fallback of 0% or "N/A":
the source divides by the zero denominator unguarded, and numpy returns
`NaN` (embedded as `none`), which the page renders as `nan%`.  Evaluating
the embedded code at the failing input (the empty filtered table) shows the
denominator is zero and the percentage is the undefined `none`, not a
defined fallback value. -/
theorem C2_unguarded_zero_denominator :
    unique_guests ([] : List Row) = 0 ∧ repeat_pct ([] : List Row) = none := by
  exact ⟨rfl, rfl⟩

/-- Claim C9: a failure in the top/bottom-brand banner computation is fatal
to the rest of the script.  On the empty filtered table the brand table has
no rows, `iloc[0]` raises `IndexError`, and the script run aborts before the
guest-brand-preference view is produced — even though that view by itself
would have evaluated to the empty table. -/
theorem C9_banner_failure_aborts_script :
    scriptTail ([] : List Row) = Except.error "IndexError"
    ∧ guest_pref ([] : List Row) = [] := by
  exact ⟨rfl, rfl⟩

/-- Claim C3: the segment assignment returns VIP exactly when spend exceeds
10000 or visits reach 6, Regular exactly when the VIP condition fails and
visits reach 3, and Occasional otherwise; the VIP branch takes precedence,
as the concrete Guest Summary rows (visits 6, spend 5000) and (visits 6,
spend 8000) — both VIP despite spend below 10000 — exhibit. -/
theorem C3_segment_rules :
    (∀ (visits : Nat) (spend : ℚ),
      (segment visits spend = Segment.VIP ↔ (10000 < spend ∨ 6 ≤ visits))
      ∧ (segment visits spend = Segment.Regular ↔
          (¬(10000 < spend ∨ 6 ≤ visits) ∧ 3 ≤ visits))
      ∧ (segment visits spend = Segment.Occasional ↔
          (¬(10000 < spend ∨ 6 ≤ visits) ∧ ¬3 ≤ visits)))
    ∧ segment 6 5000 = Segment.VIP ∧ segment 6 8000 = Segment.VIP := by
  refine ⟨fun visits spend => ?_, by decide, by decide⟩
  unfold segment
  by_cases h1 : 10000 < spend ∨ 6 ≤ visits
  · simp [h1]
  · by_cases h2 : 3 ≤ visits <;> simp [h1, h2]

/-- Claim C6: filtering with an empty selected-value set for either the
business-unit filter or the reporting-period filter returns the empty
table, not the full table. -/
theorem C6_empty_selection (t : List Row) (cSel mSel : List String)
    (h : cSel = [] ∨ mSel = []) : filteredDf t cSel mSel = [] := by
  apply List.filter_eq_nil_iff.mpr
  intro r _
  rcases h with h | h <;> subst h <;> simp

/-- Witness for claim C6: the empty business-unit selection empties a
concrete three-row table even though the period selection is full. -/
theorem C6_empty_selection_witness :
    filteredDf exRet [] ["Jan", "Feb"] = [] :=
  C6_empty_selection exRet [] ["Jan", "Feb"] (Or.inl rfl)

/-- Claim C7: filtering with the default selections — every distinct
business-unit value and every distinct reporting-period value observed in
the table — keeps the row count of the unfiltered table. -/
theorem C7_default_selection_identity (t : List Row) :
    (filteredDf t ((t.map (fun r => r.centre)).dedup)
      ((t.map (fun r => r.billMonth)).dedup)).length = t.length := by
  have h : filteredDf t ((t.map (fun r => r.centre)).dedup)
      ((t.map (fun r => r.billMonth)).dedup) = t := by
    apply List.filter_eq_self.mpr
    intro r hr
    simp only [decide_eq_true_eq]
    exact ⟨List.mem_dedup.mpr (List.mem_map_of_mem _ hr),
      List.mem_dedup.mpr (List.mem_map_of_mem _ hr)⟩
  rw [h]

/-- Counterexample to claim C1: on the two-line-item table `exRepeat` the
only customer has a single distinct bill number (so the claimed numerator
is 0) yet the source counts the customer's two ROWS and reports a repeat
percentage of 100, not 0.  The claimed formula — customers with more than
one distinct bill over distinct customers, times 100 — therefore disagrees
with the code at this input. -/
theorem C1_counterexample :
    repeat_pct exRepeat ≠
      some (((((customers exRepeat).filter
          (fun c => 1 < distinctBills c exRepeat)).length : ℚ) /
        (unique_guests exRepeat : ℚ)) * 100) := by
  have h1 : repeatGuestCount exRepeat = 1 := by decide
  have h2 : unique_guests exRepeat = 1 := by decide
  have h3 : ((customers exRepeat).filter
      (fun c => 1 < distinctBills c exRepeat)).length = 0 := by decide
  rw [repeat_pct, h1, h3, if_neg (by rw [h2]; exact one_ne_zero), h2]
  intro h
  have := Option.some.inj h
  norm_num at this

/-- Claim C1 as amended: the repeat-guest percentage divides the number of
filtered customers having more than one ROW (line item) — not more than one
distinct bill number — by the distinct-customer count of the filtered
table, times 100. -/
theorem C1_amended_row_count (t : List Row) (h : unique_guests t ≠ 0) :
    repeat_pct t =
      some (((((customers t).filter
          (fun c => 1 < (rowsOf c t).length)).length : ℚ) /
        (unique_guests t : ℚ)) * 100) := by
  have hnum : repeatGuestCount t
      = ((customers t).filter (fun c => 1 < (rowsOf c t).length)).length := by
    unfold repeatGuestCount value_counts
    rw [List.filter_map]
    rw [List.length_map]
    rfl
  rw [repeat_pct, if_neg h, hnum]

/-- Witness for the amended claim C1: on the concrete table `exRepeat` the
denominator is nonzero and the code's percentage matches the row-count
formula. -/
theorem C1_amended_witness :
    repeat_pct exRepeat =
      some (((((customers exRepeat).filter
          (fun c => 1 < (rowsOf c exRepeat).length)).length : ℚ) /
        (unique_guests exRepeat : ℚ)) * 100) :=
  C1_amended_row_count exRepeat (by decide)

/-- Claim C5: a customer is in the inactive retention view exactly when
their latest visit date is strictly earlier than the filtered table's
maximum date minus 30 days, in the recent view exactly when their latest
visit date is on or after that maximum minus 7 days, and no customer is in
both views. -/
theorem C5_retention_characterization (t : List Row) (c : String) (d m : Int)
    (h1 : lastVisit t c = some d) (h2 : globalMax t = some m) :
    (c ∈ inactive t ↔ c ∈ customers t ∧ d < m - 30)
    ∧ (c ∈ recent t ↔ c ∈ customers t ∧ m - 7 ≤ d)
    ∧ ¬(c ∈ inactive t ∧ c ∈ recent t) := by
  have hinact : c ∈ inactive t ↔ c ∈ customers t ∧ d < m - 30 := by
    rw [inactive, List.mem_filter, isInactive, h1, h2]
    simp
  have hrec : c ∈ recent t ↔ c ∈ customers t ∧ m - 7 ≤ d := by
    rw [recent, List.mem_filter, isRecent, h1, h2]
    simp
  refine ⟨hinact, hrec, ?_⟩
  rintro ⟨hi, hr⟩
  have := (hinact.mp hi).2
  have := (hrec.mp hr).2
  omega

/-- Witness for claim C5: on the concrete table `exRet` (maximum date 40),
customer 9990011122, last seen on day 2, is inactive and not recent. -/
theorem C5_retention_witness :
    ("9990011122" ∈ inactive exRet ↔
        "9990011122" ∈ customers exRet ∧ (2 : Int) < 40 - 30)
    ∧ ("9990011122" ∈ recent exRet ↔
        "9990011122" ∈ customers exRet ∧ (40 : Int) - 7 ≤ 2)
    ∧ ¬("9990011122" ∈ inactive exRet ∧ "9990011122" ∈ recent exRet) :=
  C5_retention_characterization exRet "9990011122" 2 40 (by decide) (by decide)

/-- Claim C10: every customer whose latest visit date equals the filtered
table's maximum date is classified recent, and a non-empty filtered table
always has at least one recent customer. -/
theorem C10_max_date_customer_is_recent (t : List Row) (h : t ≠ []) :
    (∀ (c : String) (m : Int),
      globalMax t = some m → lastVisit t c = some m → c ∈ recent t)
    ∧ ∃ c, c ∈ recent t := by
  have hmain : ∀ (c : String) (m : Int),
      globalMax t = some m → lastVisit t c = some m → c ∈ recent t := by
    intro c m hg hl
    have hrows : rowsOf c t ≠ [] := by
      intro hnil
      rw [lastVisit, hnil] at hl
      cases hl
    have hcust : c ∈ customers t := by
      rcases List.exists_mem_of_ne_nil _ hrows with ⟨r, hr⟩
      rcases List.mem_filter.mp hr with ⟨hrt, hrc⟩
      have hrc2 : r.customer = c := by simpa using hrc
      exact List.mem_dedup.mpr (hrc2 ▸ List.mem_map_of_mem _ hrt)
    apply List.mem_filter.mpr
    refine ⟨hcust, ?_⟩
    rw [isRecent, hl, hg]
    simp
  refine ⟨hmain, ?_⟩
  obtain ⟨m, hg⟩ : ∃ m, globalMax t = some m := by
    cases hmx : globalMax t with
    | none =>
      rw [globalMax, listMax_eq_none_iff, List.map_eq_nil_iff] at hmx
      exact absurd hmx h
    | some m => exact ⟨m, rfl⟩
  have hmem := listMax_mem hg
  rcases List.mem_map.mp hmem with ⟨r0, hr0t, hr0d⟩
  refine ⟨r0.customer, hmain r0.customer m hg ?_⟩
  apply listMax_eq_of_mem_of_le
  · apply List.mem_map.mpr
    refine ⟨r0, ?_, hr0d⟩
    apply List.mem_filter.mpr
    exact ⟨hr0t, by simp⟩
  · intro x hx
    rcases List.mem_map.mp hx with ⟨r, hr, hrd⟩
    have hrt : r ∈ t := (List.mem_filter.mp hr).1
    exact le_listMax (hrd ▸ List.mem_map_of_mem _ hrt) hg

/-- Witness for claim C10: on the concrete table `exRet`, customer
9998887776 attains the maximum date 40 and is recent, and the recent view
is non-empty. -/
theorem C10_witness :
    (∀ (c : String) (m : Int),
      globalMax exRet = some m → lastVisit exRet c = some m → c ∈ recent exRet)
    ∧ ∃ c, c ∈ recent exRet :=
  C10_max_date_customer_is_recent exRet (by decide)

/-- Claim C8: on a non-empty filtered table the brand summary is sorted by
revenue descending — its first row's revenue bounds every row's revenue —
and the "most preferred" banner names the first row's brand while the "low
performing" banner names the last row's brand. -/
theorem C8_brand_summary_sorted (t : List Row) (h : t ≠ []) :
    ∃ first rest, brand_summary t = first :: rest
    ∧ (∀ row ∈ brand_summary t, row.revenue ≤ first.revenue)
    ∧ top_brand t = some first.brand
    ∧ ∃ lastRow, (brand_summary t).getLast? = some lastRow
        ∧ low_brand t = some lastRow.brand := by
  have hbr : brands t ≠ [] := by
    intro h0
    apply h
    have hmap : t.map (fun r => r.brand) = [] := by
      rw [brands] at h0
      exact (List.dedup_eq_nil _).mp h0
    exact List.map_eq_nil_iff.mp hmap
  have hlen : (brand_summary t).length = (brands t).length := by
    rw [brand_summary]
    rw [(List.perm_insertionSort revDesc ((brands t).map (brandRow t))).length_eq]
    exact List.length_map _ _
  cases hbs : brand_summary t with
  | nil =>
    rw [hbs] at hlen
    exact absurd (List.length_eq_zero.mp hlen.symm) hbr
  | cons first rest =>
    have hsorted : List.Sorted revDesc (first :: rest) := by
      rw [← hbs, brand_summary]
      exact List.sorted_insertionSort revDesc _
    refine ⟨first, rest, rfl, ?_, ?_, ?_⟩
    · intro row hrow
      rcases List.mem_cons.mp hrow with hrow | hrow
      · exact le_of_eq (congrArg BrandRow.revenue hrow)
      · exact List.rel_of_sorted_cons hsorted row hrow
    · rw [top_brand, hbs]
      rfl
    · have hsome : ((first :: rest).getLast?).isSome := by
        rw [List.getLast?_isSome]
        exact List.cons_ne_nil first rest
      rcases Option.isSome_iff_exists.mp hsome with ⟨lastRow, hlast⟩
      refine ⟨lastRow, hlast, ?_⟩
      rw [low_brand, hbs, hlast]
      rfl

/-- Witness for claim C8: the concrete table `exRet` has brand summary rows
B1 (revenue 12170) then B2 (revenue 50); the top banner names B1 and the
low banner names B2. -/
theorem C8_witness :
    ∃ first rest, brand_summary exRet = first :: rest
    ∧ (∀ row ∈ brand_summary exRet, row.revenue ≤ first.revenue)
    ∧ top_brand exRet = some first.brand
    ∧ ∃ lastRow, (brand_summary exRet).getLast? = some lastRow
        ∧ low_brand exRet = some lastRow.brand :=
  C8_brand_summary_sorted exRet (by decide)

/-- Claim C4: the per-segment revenue view sums, over the three segments
VIP, Regular and Occasional, to the total gross-amount sum of the filtered
table — the customer join partitions the filtered rows among the
segments. -/
theorem C4_segment_revenue_partition (t : List Row) :
    seg_rev t Segment.VIP + seg_rev t Segment.Regular + seg_rev t Segment.Occasional
    = total_revenue t := by
  rw [seg_rev, seg_rev, seg_rev, sum_seg_filter (segJoin t), segJoin, guest_metrics,
    total_revenue]
  rw [List.map_flatMap, sum_flatMap_rat]
  simp only [List.map_map]
  have hcover : ∀ r ∈ t, r.customer ∈ customers t :=
    fun r hr => List.mem_dedup.mpr (List.mem_map_of_mem _ hr)
  exact sum_gross_partition t (customers t) (List.nodup_dedup _) hcover

end App
